import Mathlib

/-!
Verification of the summarization core of `app.py` (AI study notes generator).

Python strings are modeled as `List Char`; a Python exception surfaces as the
`Except.error` branch of an `Except` result.  The functions below are shallow
embeddings of the source functions `chunk_text`, `summarize_text`, `to_bullets`,
the `length_map` dictionary lookup, and the source-text selection in the
"Generate Study Notes" button handler.
-/

/-- Python exceptions raised by the modeled code: `ValueError` from
`range(0, len(text), 0)` (zero step), `KeyError` from a dict subscript miss. -/
inductive PyError
  | valueError
  | keyError
deriving DecidableEq, Repr

/-- One step of the comprehension `[text[i:i+size] for i in range(0, len(text), size)]`
for positive `size`: each index takes `size` characters and the next index is
`i + size`, i.e. the rest of the comprehension runs on `text.drop size`.
`fuel` bounds the recursion so the definition is structural (hence kernel-reducible);
`chunk_core` passes `text.length`, which suffices whenever `1 ≤ size` because every
step consumes at least one character of a nonempty `text`. -/
def chunkFuel : Nat → Nat → List Char → List (List Char)
  | 0, _, _ => []
  | fuel + 1, size, text =>
    if text = [] then [] else text.take size :: chunkFuel fuel size (text.drop size)

/-- The chunk sequence of `chunk_text` for a positive chunk size. -/
def chunk_core (text : List Char) (size : Nat) : List (List Char) :=
  chunkFuel text.length size text

/-- `chunk_text(text, chunk_size)` (app.py lines 48-49):
`return [text[i:i+chunk_size] for i in range(0, len(text), chunk_size)]`.
`range(0, n, 0)` raises `ValueError`; for a negative step, `range(0, n, step)`
with `n ≥ 0` is empty, so the comprehension yields `[]`; for a positive step the
comprehension is `chunk_core`. -/
def chunk_text (text : List Char) (size : Int) : Except PyError (List (List Char)) :=
  if size = 0 then Except.error PyError.valueError
  else if 0 < size then Except.ok (chunk_core text size.toNat)
  else Except.ok []

theorem chunkFuel_nil (fuel size : Nat) : chunkFuel fuel size [] = [] := by
  cases fuel <;> simp [chunkFuel]

theorem chunkFuel_flatten (size : Nat) (hs : 1 ≤ size) :
    ∀ fuel text, List.length text ≤ fuel → (chunkFuel fuel size text).flatten = text := by
  intro fuel
  induction fuel with
  | zero =>
    intro text h
    have : text = [] := List.eq_nil_of_length_eq_zero (Nat.le_zero.mp h)
    simp [this, chunkFuel]
  | succ n ih =>
    intro text h
    by_cases htext : text = []
    · simp [htext, chunkFuel]
    · have hlen : List.length (text.drop size) ≤ n := by
        have hpos : 0 < List.length text := List.length_pos.mpr htext
        simp only [List.length_drop]
        omega
      simp [chunkFuel, htext, ih (text.drop size) hlen]

/-- C1: Lossless partition — for every string `text` and positive integer `size`,
concatenating the chunks of `chunk_text text size` in order reproduces `text`. -/
theorem chunk_text_lossless (text : List Char) (size : Int) (hs : 0 < size) :
    ∃ cs, chunk_text text size = Except.ok cs ∧ cs.flatten = text := by
  refine ⟨chunk_core text size.toNat, ?_, ?_⟩
  · have h0 : ¬size = 0 := by omega
    simp [chunk_text, hs, h0]
  · have h1 : 1 ≤ size.toNat := by omega
    exact chunkFuel_flatten size.toNat h1 text.length text (Nat.le_refl _)

theorem chunk_text_lossless_witness :
    (0 : Int) < 2 ∧
      ∃ cs, chunk_text ['a', 'b', 'c', 'd', 'e'] 2 = Except.ok cs ∧
        cs.flatten = ['a', 'b', 'c', 'd', 'e'] :=
  ⟨by decide, chunk_text_lossless ['a', 'b', 'c', 'd', 'e'] 2 (by decide)⟩

theorem chunkFuel_length (size : Nat) (hs : 1 ≤ size) :
    ∀ fuel text, List.length text ≤ fuel → text ≠ [] →
      (chunkFuel fuel size text).length = (List.length text + size - 1) / size := by
  intro fuel
  induction fuel with
  | zero =>
    intro text h htext
    exact absurd (List.eq_nil_of_length_eq_zero (Nat.le_zero.mp h)) htext
  | succ n ih =>
    intro text h htext
    have hpos : 0 < List.length text := List.length_pos.mpr htext
    by_cases hshort : List.length text ≤ size
    · have hdrop : text.drop size = [] := by
        apply List.eq_nil_of_length_eq_zero
        simp only [List.length_drop]
        omega
      have hnum : List.length text + size - 1 = (List.length text - 1) + size := by omega
      have hdiv : (List.length text - 1) / size = 0 :=
        Nat.div_eq_of_lt (by omega)
      simp [chunkFuel, htext, hdrop, chunkFuel_nil, hnum, Nat.add_div_right _ hs, hdiv]
    · have hlen : List.length (text.drop size) ≤ n := by
        simp only [List.length_drop]
        omega
      have hne : text.drop size ≠ [] := by
        intro hc
        have := congrArg List.length hc
        simp only [List.length_drop, List.length_nil] at this
        omega
      have hrec := ih (text.drop size) hlen hne
      simp only [List.length_drop] at hrec
      have hnum1 : List.length text - size + size - 1 = (List.length text - size - 1) + size := by
        omega
      have hnum2 : List.length text + size - 1 = (List.length text - 1) + size := by omega
      have hnum3 : List.length text - 1 = (List.length text - size - 1) + size := by omega
      simp [chunkFuel, htext, hrec, hnum1, hnum2, hnum3, Nat.add_div_right _ hs]

/-- C3: Chunk count — for positive `size`, `chunk_text text size` succeeds; when
`text` is nonempty the number of chunks is `⌈len(text)/size⌉`, written with the
standard formula `(len(text) + size - 1) / size`; the empty text yields the empty
sequence of chunks. -/
theorem chunk_text_count (text : List Char) (size : Int) (hs : 0 < size) :
    ∃ cs, chunk_text text size = Except.ok cs ∧
      (text ≠ [] → cs.length = (List.length text + size.toNat - 1) / size.toNat) ∧
      (text = [] → cs = []) := by
  refine ⟨chunk_core text size.toNat, ?_, ?_, ?_⟩
  · have h0 : ¬size = 0 := by omega
    simp [chunk_text, hs, h0]
  · intro htext
    exact chunkFuel_length size.toNat (by omega) text.length text (Nat.le_refl _) htext
  · intro htext
    simp [chunk_core, htext, chunkFuel_nil]

theorem chunk_text_count_witness :
    ((0 : Int) < 2 ∧
      ∃ cs, chunk_text ['a', 'b', 'c', 'd', 'e'] 2 = Except.ok cs ∧
        (['a', 'b', 'c', 'd', 'e'] ≠ ([] : List Char) →
          cs.length = (List.length ['a', 'b', 'c', 'd', 'e'] + (2 : Int).toNat - 1) / (2 : Int).toNat) ∧
        (['a', 'b', 'c', 'd', 'e'] = ([] : List Char) → cs = [])) ∧
    ((0 : Int) < 7 ∧
      ∃ cs, chunk_text [] 7 = Except.ok cs ∧
        (([] : List Char) ≠ ([] : List Char) →
          cs.length = (List.length ([] : List Char) + (7 : Int).toNat - 1) / (7 : Int).toNat) ∧
        (([] : List Char) = ([] : List Char) → cs = [])) :=
  ⟨⟨by decide, chunk_text_count ['a', 'b', 'c', 'd', 'e'] 2 (by decide)⟩,
   ⟨by decide, chunk_text_count [] 7 (by decide)⟩⟩

/-- Counterexample to C8 as stated: `chunk_text("abc", -1)` does not signal any
error — `range(0, 3, -1)` is empty, so the comprehension returns `[]`. -/
theorem chunk_text_negative_counterexample :
    chunk_text ['a', 'b', 'c'] (-1) = Except.ok [] := rfl

/-- C8 (amended): `chunk_text text 0` raises `ValueError` (the step of
`range(0, len(text), 0)` must not be zero); for every negative `size` the call
returns the empty sequence without error; and for every positive `size` it has no
failure mode (it returns `Except.ok`). -/
theorem chunk_text_size_contract (text : List Char) (size : Int) :
    chunk_text text 0 = Except.error PyError.valueError ∧
    (size < 0 → chunk_text text size = Except.ok []) ∧
    (0 < size → ∃ cs, chunk_text text size = Except.ok cs) := by
  refine ⟨by simp [chunk_text], ?_, ?_⟩
  · intro hneg
    have h0 : ¬size = 0 := by omega
    have h1 : ¬0 < size := by omega
    simp [chunk_text, h0, h1]
  · intro hpos
    have h0 : ¬size = 0 := by omega
    exact ⟨chunk_core text size.toNat, by simp [chunk_text, h0, hpos]⟩

theorem chunk_text_size_contract_witness :
    chunk_text ['a'] 0 = Except.error PyError.valueError ∧
    ((-2 : Int) < 0 ∧ chunk_text ['a'] (-2) = Except.ok []) :=
  ⟨(chunk_text_size_contract ['a'] (-2)).1,
   by decide,
   (chunk_text_size_contract ['a'] (-2)).2.1 (by decide)⟩

/-- The Summarization Provider boundary (`summarizer(chunk, max_length, min_length)`
followed by `result[0]["summary_text"]`): a chunk and the two length bounds give a
summary string, or a raised exception whose payload is modeled as a `String`. -/
abbrev Provider := List Char → Nat → Nat → Except String (List Char)

/-- The loop of `summarize_text` (app.py lines 55-62): for each chunk in order,
call the provider; an exception aborts the whole loop, otherwise the summary is
appended to the collected list. -/
def summarizeChunks (p : Provider) (maxLen minLen : Nat) :
    List (List Char) → Except String (List (List Char))
  | [] => Except.ok []
  | c :: cs =>
    match p c maxLen minLen with
    | Except.error e => Except.error e
    | Except.ok s =>
      match summarizeChunks p maxLen minLen cs with
      | Except.error e => Except.error e
      | Except.ok ss => Except.ok (s :: ss)

/-- `summarize_text(text)` (app.py lines 51-64): chunk with the default size 1000,
summarize each chunk in order with the session's `MAX_LEN`/`MIN_LEN` (passed here
explicitly as `maxLen`/`minLen`), and return `" ".join(summaries)`. -/
def summarize_text (p : Provider) (maxLen minLen : Nat) (text : List Char) :
    Except String (List Char) :=
  match summarizeChunks p maxLen minLen (chunk_core text 1000) with
  | Except.error e => Except.error e
  | Except.ok ss => Except.ok (List.intercalate [' '] ss)

/-- C6: Empty input — for every provider and every pair of length bounds,
`summarize_text` on the empty string returns the empty string and does not fail.
The quantification over all providers (including always-failing ones) expresses
that the provider is never invoked: the result is independent of it. -/
theorem summarize_text_empty (p : Provider) (maxLen minLen : Nat) :
    summarize_text p maxLen minLen [] = Except.ok [] := rfl

theorem summarizeChunks_ok (p : Provider) (g : List Char → List Char)
    (maxLen minLen : Nat) :
    ∀ l : List (List Char), (∀ c ∈ l, p c maxLen minLen = Except.ok (g c)) →
      summarizeChunks p maxLen minLen l = Except.ok (l.map g) := by
  intro l
  induction l with
  | nil => intro _; rfl
  | cons c cs ih =>
    intro h
    have hc : p c maxLen minLen = Except.ok (g c) := h c (List.mem_cons_self c cs)
    have hcs := ih fun d hd => h d (List.mem_cons_of_mem c hd)
    simp [summarizeChunks, hc, hcs]

/-- C7: Assembly order — if the provider succeeds on every chunk of
`chunk_core text 1000`, returning `g c` on chunk `c`, then `summarize_text`
returns the per-chunk results in chunk order, joined with a single space; in
particular the i-th ChunkSummary is the provider's result on the i-th chunk,
and the provider is invoked with the policy's `maxLen` and `minLen`. -/
theorem summarize_text_assembly (p : Provider) (g : List Char → List Char)
    (maxLen minLen : Nat) (text : List Char)
    (h : ∀ c ∈ chunk_core text 1000, p c maxLen minLen = Except.ok (g c)) :
    summarize_text p maxLen minLen text =
      Except.ok (List.intercalate [' '] ((chunk_core text 1000).map g)) := by
  simp [summarize_text, summarizeChunks_ok p g maxLen minLen _ h]

/-- A provider that succeeds on every chunk with the fixed summary "s". -/
def pOk : Provider := fun _ _ _ => Except.ok ['s']

/-- The result function of `pOk`. -/
def gOk : List Char → List Char := fun _ => ['s']

theorem summarize_text_assembly_witness :
    summarize_text pOk 60 20 ['h', 'i'] = Except.ok ['s'] :=
  (summarize_text_assembly pOk gOk 60 20 ['h', 'i'] (fun _ _ => rfl)).trans (by rfl)

theorem summarizeChunks_error (p : Provider) (maxLen minLen : Nat) :
    ∀ (l : List (List Char)) (i : Nat) (hi : i < l.length) (e : String),
      (∀ j (hj : j < i), ∃ s, p (l.get ⟨j, Nat.lt_trans hj hi⟩) maxLen minLen = Except.ok s) →
      p (l.get ⟨i, hi⟩) maxLen minLen = Except.error e →
      summarizeChunks p maxLen minLen l = Except.error e := by
  intro l
  induction l with
  | nil => intro i hi; exact absurd hi (Nat.not_lt_zero i)
  | cons c cs ih =>
    intro i hi e hpre hfail
    cases i with
    | zero =>
      simp only [List.get] at hfail
      simp [summarizeChunks, hfail]
    | succ i =>
      obtain ⟨s, hs⟩ := hpre 0 (Nat.succ_pos i)
      simp only [List.get] at hs hfail
      have hi2 : i < cs.length := Nat.lt_of_succ_lt_succ hi
      have hrec := ih i hi2 e
        (fun j hj => hpre (j + 1) (Nat.succ_lt_succ hj)) hfail
      simp [summarizeChunks, hs, hrec]

/-- C2 (amended): if the provider succeeds on every chunk before index `i` and
raises an exception `e` on the i-th chunk, then `summarize_text` fails as a whole
with exactly that exception: the provider's underlying error is propagated
unchanged (in particular it does not carry the failing chunk's index), and since
the result is `Except.error e`, no earlier ChunkSummary is returned. -/
theorem summarize_text_failure (p : Provider) (maxLen minLen : Nat) (text : List Char)
    (i : Nat) (e : String) (hi : i < (chunk_core text 1000).length)
    (hpre : ∀ j (hj : j < i),
      ∃ s, p ((chunk_core text 1000).get ⟨j, Nat.lt_trans hj hi⟩) maxLen minLen = Except.ok s)
    (hfail : p ((chunk_core text 1000).get ⟨i, hi⟩) maxLen minLen = Except.error e) :
    summarize_text p maxLen minLen text = Except.error e := by
  simp [summarize_text,
    summarizeChunks_error p maxLen minLen (chunk_core text 1000) i hi e hpre hfail]

/-- A provider that raises on every chunk. -/
def pErr : Provider := fun _ _ _ => Except.error "boom"

theorem summarize_text_failure_witness :
    summarize_text pErr 60 20 ['h', 'i'] = Except.error "boom" :=
  summarize_text_failure pErr 60 20 ['h', 'i'] 0 "boom" (by decide)
    (fun j hj => absurd hj (Nat.not_lt_zero j)) rfl

/-- A provider that succeeds exactly on full-size (1000-character) chunks and
raises the same exception on any other chunk. -/
def pFailShort : Provider := fun chunk _ _ =>
  if chunk.length = 1000 then Except.ok ['s'] else Except.error "model error"

/-- A 1001-character text: two chunks, the provider above fails on chunk index 1. -/
def tTwoChunks : List Char := List.replicate 1000 'a' ++ ['b']

/-- A 1-character text: one chunk, the provider above fails on chunk index 0. -/
def tOneChunk : List Char := ['b']

set_option maxRecDepth 40000 in
/-- Counterexample to C2 as stated: the failure does not identify the index of the
failing chunk.  On `tTwoChunks` the provider succeeds on chunk 0 and fails on
chunk 1; on `tOneChunk` it fails on chunk 0; yet `summarize_text` returns the
identical error value `"model error"` in both runs — the raw provider exception is
propagated with no chunk index attached, so the error cannot identify the index. -/
theorem summarize_text_failure_counterexample :
    summarize_text pFailShort 60 20 tTwoChunks = Except.error "model error" ∧
    summarize_text pFailShort 60 20 tOneChunk = Except.error "model error" ∧
    (chunk_core tTwoChunks 1000).length = 2 ∧
    pFailShort ((chunk_core tTwoChunks 1000).getD 0 []) 60 20 = Except.ok ['s'] ∧
    pFailShort ((chunk_core tTwoChunks 1000).getD 1 []) 60 20 = Except.error "model error" ∧
    (chunk_core tOneChunk 1000).length = 1 ∧
    pFailShort ((chunk_core tOneChunk 1000).getD 0 []) 60 20 = Except.error "model error" :=
  ⟨rfl, rfl, rfl, rfl, rfl, rfl, rfl⟩

/-- `summary.split(". ")` specialized to the literal two-character separator:
scan left to right; each non-overlapping occurrence of `'.'` followed by `' '`
ends the current fragment (accumulated reversed in `acc`).  `"".split(". ")`
yields `[""]`, as in Python. -/
def splitDotSpace : List Char → List Char → List (List Char)
  | [], acc => [acc.reverse]
  | [c], acc => [(c :: acc).reverse]
  | c :: c2 :: rest, acc =>
    if c = '.' ∧ c2 = ' ' then acc.reverse :: splitDotSpace rest []
    else splitDotSpace (c2 :: rest) (c :: acc)

/-- Python whitespace for `str.strip()`, restricted to the ASCII whitespace
characters (the texts in this development contain no exotic Unicode spaces). -/
def pyIsSpace (c : Char) : Bool :=
  c == ' ' || c == '\t' || c == '\n' || c == '\r' || c == '\x0B' || c == '\x0C'

/-- `s.strip()`: drop leading and trailing whitespace. -/
def pyStrip (s : List Char) : List Char :=
  ((s.dropWhile pyIsSpace).reverse.dropWhile pyIsSpace).reverse

/-- The fixed bullet marker `"• "`. -/
def bulletMarker : List Char := ['•', ' ']

/-- `to_bullets(summary)` (app.py lines 66-68):
`sentences = summary.split(". ")` and
`return ["• " + s.strip() for s in sentences if len(s.strip()) > 5]`. -/
def to_bullets (summary : List Char) : List (List Char) :=
  let sentences := splitDotSpace summary []
  (sentences.filter fun s => 5 < (pyStrip s).length).map fun s => bulletMarker ++ pyStrip s

/-- Modelled from the spec: the Bullet Formatter algorithm of §4.4, as worded —
split on the literal delimiter ". ", trim each fragment, discard fragments whose
trimmed length is ≤ 5, and prepend the marker "• " to each surviving fragment in
original order. -/
def toBullets_spec (summary : List Char) : List (List Char) :=
  (((splitDotSpace summary []).map pyStrip).filter fun t => 5 < t.length).map
    fun t => bulletMarker ++ t

/-- C4: Bullet formatter algorithm — `to_bullets` computes exactly the split /
trim / length-filter / marker-prefix pipeline described by the spec, and on
"AI is great. Go. Study hard and review daily." it yields the two expected
bullets, dropping the short fragment "Go". -/
theorem to_bullets_correct :
    (∀ summary : List Char, to_bullets summary = toBullets_spec summary) ∧
    to_bullets ("AI is great. Go. Study hard and review daily.".data) =
      ["• AI is great".data, "• Study hard and review daily.".data] := by
  constructor
  · intro summary
    simp only [to_bullets, toBullets_spec]
    induction splitDotSpace summary [] with
    | nil => rfl
    | cons s l ih =>
      by_cases h : 5 < (pyStrip s).length
      · simp [h, ih]
      · simp [h, ih]
  · rfl

/-- `True` exactly when the string contains the two-character delimiter ". ". -/
def hasDotSpace : List Char → Bool
  | [] => false
  | [_] => false
  | c :: c2 :: rest =>
    if c = '.' ∧ c2 = ' ' then true else hasDotSpace (c2 :: rest)

theorem splitDotSpace_no_sep :
    ∀ s : List Char, hasDotSpace s = false →
      ∀ acc, splitDotSpace s acc = [acc.reverse ++ s] := by
  intro s
  induction s with
  | nil => intro _ acc; simp [splitDotSpace]
  | cons c cs ih =>
    intro h acc
    cases cs with
    | nil => simp [splitDotSpace]
    | cons c2 rest =>
      by_cases hsep : c = '.' ∧ c2 = ' '
      · simp [hasDotSpace, hsep] at h
      · have h2 : hasDotSpace (c2 :: rest) = false := by
          simpa [hasDotSpace, hsep] using h
        simp [splitDotSpace, hsep, ih h2 (c :: acc)]

/-- C9: Bullet formatter edge cases — `to_bullets ""` is the empty sequence, and
for every summary with no ". " delimiter the result is a single bullet (the
trimmed string after the marker) when the trimmed string is longer than 5
characters, and the empty sequence otherwise. -/
theorem to_bullets_edge_cases :
    to_bullets [] = [] ∧
    ∀ summary : List Char, hasDotSpace summary = false →
      to_bullets summary =
        if 5 < (pyStrip summary).length then [bulletMarker ++ pyStrip summary] else [] := by
  constructor
  · rfl
  · intro summary h
    simp only [to_bullets, splitDotSpace_no_sep summary h [], List.reverse_nil,
      List.nil_append]
    by_cases hlen : 5 < (pyStrip summary).length
    · simp [hlen]
    · simp [hlen]

theorem to_bullets_edge_cases_witness :
    hasDotSpace ("hello there".data) = false ∧
    to_bullets ("hello there".data) = [bulletMarker ++ pyStrip ("hello there".data)] :=
  ⟨by decide,
   (to_bullets_edge_cases.2 ("hello there".data) (by decide)).trans (by decide)⟩

/-- The `length_map` dictionary literal (app.py lines 23-27). -/
def length_map : List (String × (Nat × Nat)) :=
  [("Short", (60, 20)), ("Medium", (120, 40)), ("Detailed", (200, 70))]

/-- The dict subscript `length_map[summary_type]` (app.py line 29): a hit returns
the `(MAX_LEN, MIN_LEN)` pair, a miss raises `KeyError` — the invalid-argument
error for an unknown tier. -/
def length_map_get (tier : String) : Except PyError (Nat × Nat) :=
  match length_map.lookup tier with
  | some p => Except.ok p
  | none => Except.error PyError.keyError

/-- C5: Policy table closure — "Short" resolves to (60, 20), "Medium" to
(120, 40), "Detailed" to (200, 70), and every tier outside the three-entry set
raises the invalid-argument (`KeyError`) error. -/
theorem length_map_closure :
    length_map_get "Short" = Except.ok (60, 20) ∧
    length_map_get "Medium" = Except.ok (120, 40) ∧
    length_map_get "Detailed" = Except.ok (200, 70) ∧
    ∀ tier : String, tier ≠ "Short" → tier ≠ "Medium" → tier ≠ "Detailed" →
      length_map_get tier = Except.error PyError.keyError := by
  refine ⟨rfl, rfl, rfl, ?_⟩
  intro tier h1 h2 h3
  have b1 : (tier == "Short") = false := by simpa using h1
  have b2 : (tier == "Medium") = false := by simpa using h2
  have b3 : (tier == "Detailed") = false := by simpa using h3
  simp [length_map_get, length_map, List.lookup, b1, b2, b3]

theorem length_map_closure_witness :
    ("Long" ≠ "Short" ∧ "Long" ≠ "Medium" ∧ "Long" ≠ "Detailed") ∧
    length_map_get "Long" = Except.error PyError.keyError :=
  ⟨⟨by decide, by decide, by decide⟩,
   length_map_closure.2.2.2 "Long" (by decide) (by decide) (by decide)⟩

/-- Lines 110-116 of app.py, the "Generate Study Notes" handler: if both the
stripped typed input and the extracted PDF text are empty (Python falsy), a
warning is shown and nothing is generated (`none`); otherwise
`source_text = text if text else user_input`, i.e. the extracted PDF text is
chosen whenever it is non-empty, and the typed input only otherwise. -/
def generate_notes_source (user_input extracted : List Char) : Option (List Char) :=
  if pyStrip user_input = [] ∧ extracted = [] then none
  else some (if extracted ≠ [] then extracted else user_input)

/-- C10: Implicit source precedence — whenever the PDF-extracted text is
non-empty it is chosen as the source text (even if the typed input is also
non-empty), and the typed input is used only when the extracted text is empty. -/
theorem generate_notes_source_precedence :
    (∀ user_input extracted : List Char,
      extracted ≠ [] → generate_notes_source user_input extracted = some extracted) ∧
    (∀ user_input : List Char, pyStrip user_input ≠ [] →
      generate_notes_source user_input [] = some user_input) := by
  constructor
  · intro user_input extracted hne
    have h1 : ¬(pyStrip user_input = [] ∧ extracted = []) := fun hc => hne hc.2
    simp [generate_notes_source, h1, hne]
  · intro user_input hne
    have h1 : ¬(pyStrip user_input = [] ∧ ([] : List Char) = []) := fun hc => hne hc.1
    simp [generate_notes_source, h1, hne]

theorem generate_notes_source_precedence_witness :
    ("pdf text".data ≠ ([] : List Char) ∧
      generate_notes_source ("typed notes".data) ("pdf text".data) =
        some ("pdf text".data)) ∧
    (pyStrip ("typed notes".data) ≠ ([] : List Char) ∧
      generate_notes_source ("typed notes".data) [] = some ("typed notes".data)) :=
  ⟨⟨by decide,
    generate_notes_source_precedence.1 ("typed notes".data) ("pdf text".data) (by decide)⟩,
   ⟨by decide,
    generate_notes_source_precedence.2 ("typed notes".data) (by decide)⟩⟩
